import Mathlib

/-!
Shallow embedding of the mze personal-knowledge-graph store:
the search-query parser and matcher (src/search_query.rs) and the
sqlite-backed container transaction operations (src/container/sqlite.rs).
Strings are modelled as Lean `String`s (lists of unicode scalars), byte
payloads as `List Nat`, and the sqlite tables as lists of rows in insertion
order; operations that can fail return `Except ContainerSqliteError`.
-/

namespace Mze

/-- Unicode White_Space property, as used by Rust `char::is_whitespace`
(and hence by `str::split_whitespace` in `SearchQuery::new`). -/
def rustIsWhitespace (c : Char) : Bool :=
  let n := c.toNat
  (decide (0x09 ≤ n) && decide (n ≤ 0x0D)) || decide (n = 0x20) ||
  decide (n = 0x85) || decide (n = 0xA0) || decide (n = 0x1680) ||
  (decide (0x2000 ≤ n) && decide (n ≤ 0x200A)) || decide (n = 0x2028) ||
  decide (n = 0x2029) || decide (n = 0x202F) || decide (n = 0x205F) ||
  decide (n = 0x3000)

/-- ASCII whitespace, as in Rust `char::is_ascii_whitespace`:
space, horizontal tab, line feed, form feed, carriage return. -/
def asciiIsWhitespace (c : Char) : Bool :=
  let n := c.toNat
  decide (n = 0x20) || decide (n = 0x09) || decide (n = 0x0A) ||
  decide (n = 0x0C) || decide (n = 0x0D)

/-- Split a character list on a whitespace predicate, dropping empty tokens;
`cur` is the (non-reversed) token being accumulated. -/
def splitWhitespaceByAux (p : Char → Bool) : List Char → List Char → List String
  | [], cur => if cur = [] then [] else [⟨cur⟩]
  | c :: cs, cur =>
    if p c then
      (if cur = [] then [] else [(⟨cur⟩ : String)]) ++ splitWhitespaceByAux p cs []
    else
      splitWhitespaceByAux p cs (cur ++ [c])

/-- Split a string on a whitespace predicate, dropping empty tokens. -/
def splitWhitespaceBy (p : Char → Bool) (s : String) : List String :=
  splitWhitespaceByAux p s.data []

/-- Model of Rust `str::split_whitespace` (Unicode White_Space). -/
def split_whitespace (s : String) : List String :=
  splitWhitespaceBy rustIsWhitespace s

/-- Tokenization on ASCII whitespace only (the spec's wording):
used to state claims that speak of ASCII-whitespace splitting. -/
def splitAsciiWhitespace (s : String) : List String :=
  splitWhitespaceBy asciiIsWhitespace s

/-- Model of Rust `str::starts_with` for character lists:
does the needle occur at the head of the haystack? -/
def listStartsWith : List Char → List Char → Bool
  | _, [] => true
  | [], _ :: _ => false
  | a :: as_, b :: bs => a == b && listStartsWith as_ bs

/-- Model of Rust `str::contains(&str)`: does `sub` occur contiguously in
`hay`? On valid UTF-8, Rust's byte-level search coincides with this
scalar-level search, because UTF-8 is self-synchronizing. -/
def listContainsSub (hay sub : List Char) : Bool :=
  listStartsWith hay sub ||
    match hay with
    | [] => false
    | _ :: t => listContainsSub t sub

/-- String version of `listContainsSub`: `hay` contains `sub`. -/
def strContainsSub (hay sub : String) : Bool :=
  listContainsSub hay.data sub.data

/-- Model of Rust `str::strip_prefix("#")` followed by the fallback to the
unstripped word: remove one leading hash if present. -/
def stripHash (w : String) : String :=
  match w.data with
  | c :: rest => if c = '#' then ⟨rest⟩ else w
  | [] => w

/-- Split a character list at the first occurrence of the equals sign
(Rust `str::find("=")` plus the two slices around it). -/
def splitFirstEq : List Char → Option (List Char × List Char)
  | [] => none
  | c :: cs =>
    if c = '=' then some ([], cs)
    else
      match splitFirstEq cs with
      | some (k, v) => some (c :: k, v)
      | none => none

/-- String version of `splitFirstEq`: key and value around the first `=`. -/
def splitFirstEqStr (w : String) : Option (String × String) :=
  match splitFirstEq w.data with
  | some (k, v) => some (⟨k⟩, ⟨v⟩)
  | none => none

/-- UTF-8 decoding of one scalar: given the first byte and the remaining
bytes, return the decoded character and the bytes after it, or `none` for
an invalid sequence.  Faithful to Rust `std::str::from_utf8` validation:
no overlongs, no surrogates, nothing above U+10FFFF. -/
def utf8DecodeChar (b0 : Nat) (rest : List Nat) : Option (Char × List Nat) :=
  if decide (b0 < 0x80) then
    some (Char.ofNat b0, rest)
  else if decide (b0 < 0xC2) then
    none
  else if decide (b0 < 0xE0) then
    match rest with
    | b1 :: rest1 =>
      if decide (0x80 ≤ b1) && decide (b1 < 0xC0) then
        some (Char.ofNat ((b0 - 0xC0) * 0x40 + (b1 - 0x80)), rest1)
      else none
    | [] => none
  else if decide (b0 < 0xF0) then
    match rest with
    | b1 :: b2 :: rest2 =>
      let lo1 := if decide (b0 = 0xE0) then 0xA0 else 0x80
      let hi1 := if decide (b0 = 0xED) then 0xA0 else 0xC0
      if decide (lo1 ≤ b1) && decide (b1 < hi1) &&
         decide (0x80 ≤ b2) && decide (b2 < 0xC0) then
        some (Char.ofNat ((b0 - 0xE0) * 0x1000 + (b1 - 0x80) * 0x40 + (b2 - 0x80)),
              rest2)
      else none
    | _ => none
  else if decide (b0 < 0xF5) then
    match rest with
    | b1 :: b2 :: b3 :: rest3 =>
      let lo1 := if decide (b0 = 0xF0) then 0x90 else 0x80
      let hi1 := if decide (b0 = 0xF4) then 0x90 else 0xC0
      if decide (lo1 ≤ b1) && decide (b1 < hi1) &&
         decide (0x80 ≤ b2) && decide (b2 < 0xC0) &&
         decide (0x80 ≤ b3) && decide (b3 < 0xC0) then
        some (Char.ofNat ((b0 - 0xF0) * 0x40000 + (b1 - 0x80) * 0x1000 +
                          (b2 - 0x80) * 0x40 + (b3 - 0x80)),
              rest3)
      else none
    | _ => none
  else none

/-- Fuel-indexed UTF-8 decoding loop; the fuel is an upper bound on the
number of characters, so `utf8Decode` below never exhausts it. -/
def utf8DecodeLoop : List Nat → Nat → Option (List Char)
  | [], _ => some []
  | _ :: _, 0 => none
  | b0 :: rest, fuel + 1 =>
    match utf8DecodeChar b0 rest with
    | some (c, rest1) =>
      match utf8DecodeLoop rest1 fuel with
      | some cs => some (c :: cs)
      | none => none
    | none => none

/-- Model of Rust `std::str::from_utf8`: decode a byte sequence into
characters, or `none` if the bytes are not valid UTF-8. -/
def utf8Decode (bytes : List Nat) : Option (List Char) :=
  utf8DecodeLoop bytes bytes.length

/-- Decoded payload text of an optional payload: `none` when the payload is
absent or not valid UTF-8. -/
def utf8DecodeData : Option (List Nat) → Option (List Char)
  | none => none
  | some bytes => utf8Decode bytes

/-- Tags and attributes of one entity (struct `TagsAndAttributes`). -/
structure TagsAndAttributes where
  tags : List String
  attributes : List (String × String)
deriving DecidableEq

/-- A record: tags and attributes plus an optional binary payload
(struct `Record`; the payload bytes are modelled as `List Nat`). -/
structure Record where
  ta : TagsAndAttributes
  data : Option (List Nat)
deriving DecidableEq

/-- An entity id paired with a version number (struct `EntityIdVer`;
the 128-bit id is modelled as one `Nat`). -/
structure EntityIdVer where
  id : Nat
  ver : Nat
deriving DecidableEq

/-- A link: tags and attributes plus directed `from`/`to` edge sets
(struct `Link`; `from` is a Lean keyword, hence the underscores). -/
structure Link where
  ta : TagsAndAttributes
  from_ : List EntityIdVer
  to_ : List EntityIdVer
deriving DecidableEq

/-- Parsed tags query (struct `SearchQueryTags`). -/
structure SearchQueryTags where
  tag_substrings : List String
deriving DecidableEq

/-- Parsed attributes query (struct `SearchQueryAttributes`). -/
structure SearchQueryAttributes where
  key_substrings : List String
  value_substrings : List String
  kv_substrings : List (String × String)
deriving DecidableEq

/-- Parsed records-and-links query (struct `SearchQueryRecordsAndLinks`). -/
structure SearchQueryRecordsAndLinks where
  tags : SearchQueryTags
  attributes : SearchQueryAttributes
  text_substrings : List String
deriving DecidableEq

/-- A parsed search query (enum `SearchQuery`). -/
inductive SearchQuery where
  | tags : SearchQueryTags → SearchQuery
  | attributes : SearchQueryAttributes → SearchQuery
  | recordsAndLinks : SearchQueryRecordsAndLinks → SearchQuery
deriving DecidableEq

/-- Model of `SearchQueryTags::is_empty`. -/
def SearchQueryTags.is_empty (q : SearchQueryTags) : Bool :=
  q.tag_substrings.isEmpty

/-- Model of `SearchQueryTags::check`: a tag matches if it contains any listed
substring. -/
def SearchQueryTags.check (q : SearchQueryTags) (tag : String) : Bool :=
  q.tag_substrings.any fun t => strContainsSub tag t

/-- Model of `SearchQueryTags::check_tags`: every tag substring is contained in at
least one of the entity's tags. -/
def SearchQueryTags.check_tags (q : SearchQueryTags) (tags : List String) : Bool :=
  q.tag_substrings.all fun t => tags.any fun tag => strContainsSub tag t

/-- Model of `SearchQueryAttributes::is_empty`. -/
def SearchQueryAttributes.is_empty (q : SearchQueryAttributes) : Bool :=
  q.key_substrings.isEmpty && q.value_substrings.isEmpty && q.kv_substrings.isEmpty

/-- Model of `SearchQueryAttributes::check`: one (key, value) pair against the
parsed attribute filters. -/
def SearchQueryAttributes.check (q : SearchQueryAttributes) (key value : String) : Bool :=
  q.kv_substrings.any (fun kv => strContainsSub key kv.1 && strContainsSub value kv.2) ||
  q.key_substrings.any (fun k => strContainsSub key k) ||
  q.value_substrings.any (fun v => strContainsSub value v)

/-- Model of `SearchQueryAttributes::check_attributes`: every filter is satisfied by
at least one of the entity's attribute pairs. -/
def SearchQueryAttributes.check_attributes (q : SearchQueryAttributes)
    (attributes : List (String × String)) : Bool :=
  q.kv_substrings.all
    (fun kv => attributes.any fun a => strContainsSub a.1 kv.1 && strContainsSub a.2 kv.2) &&
  q.key_substrings.all (fun k => attributes.any fun a => strContainsSub a.1 k) &&
  q.value_substrings.all (fun v => attributes.any fun a => strContainsSub a.2 v)

/-- Model of `SearchQueryRecordsAndLinks::is_empty`. -/
def SearchQueryRecordsAndLinks.is_empty (q : SearchQueryRecordsAndLinks) : Bool :=
  q.tags.is_empty && q.attributes.is_empty && q.text_substrings.isEmpty

/-- Model of `SearchQueryRecordsAndLinks::check_tags_and_attributes`. -/
def SearchQueryRecordsAndLinks.check_tags_and_attributes
    (q : SearchQueryRecordsAndLinks) (ta : TagsAndAttributes) : Bool :=
  q.tags.check_tags ta.tags && q.attributes.check_attributes ta.attributes

/-- Model of `SearchQueryRecordsAndLinks::check_record`: tags and attributes must
check out, and the text condition holds when there are no text substrings,
the payload is absent, the payload is not valid UTF-8, or some text
substring occurs in the decoded payload text. -/
def SearchQueryRecordsAndLinks.check_record
    (q : SearchQueryRecordsAndLinks) (record : Record) : Bool :=
  q.check_tags_and_attributes record.ta &&
    (q.text_substrings.isEmpty ||
      match record.data with
      | none => true
      | some bytes =>
        match utf8Decode bytes with
        | some record_data => q.text_substrings.any fun s => listContainsSub record_data s.data
        | none => true)

/-- Model of `SearchQueryRecordsAndLinks::check_link`: links carry no payload, so
only tags and attributes are checked. -/
def SearchQueryRecordsAndLinks.check_link
    (q : SearchQueryRecordsAndLinks) (link : Link) : Bool :=
  q.check_tags_and_attributes link.ta

/-- Tags branch of `SearchQuery::new`: drop empty and bare-hash tokens,
strip one leading hash from the rest. -/
def tagsBranch (words : List String) : SearchQueryTags :=
  ⟨words.filterMap fun word =>
    if word = "" || word = "#" then none else some (stripHash word)⟩

/-- One step of the attributes branch of `SearchQuery::new`.  `none`
models the `assert!(!k.is_empty())` panic. -/
def attrStep (acc : SearchQueryAttributes) (word : String) : Option SearchQueryAttributes :=
  if stripHash word = "" || stripHash word = "=" then some acc
  else
    match splitFirstEqStr (stripHash word) with
    | some (k, v) =>
      if v = "" then
        if k = "" then none
        else some { acc with key_substrings := acc.key_substrings ++ [k] }
      else if k = "" then
        some { acc with value_substrings := acc.value_substrings ++ [v] }
      else
        some { acc with kv_substrings := acc.kv_substrings ++ [(k, v)] }
    | none =>
      some { acc with key_substrings := acc.key_substrings ++ [stripHash word],
                      value_substrings := acc.value_substrings ++ [stripHash word] }

/-- One step of the records-and-links branch of `SearchQuery::new`.
The three leading `none` cases model the `assert!` calls on every token,
and the inner `none` models `assert!(!k.is_empty())`. -/
def ralStep (acc : SearchQueryRecordsAndLinks) (word : String) :
    Option SearchQueryRecordsAndLinks :=
  if word = "" then none
  else if word = "#" then none
  else if word = "#=" then none
  else
    match word.data with
    | '#' :: rest =>
      match splitFirstEqStr ⟨rest⟩ with
      | some (k, v) =>
        if v = "" then
          if k = "" then none
          else some { acc with attributes :=
            { acc.attributes with key_substrings := acc.attributes.key_substrings ++ [k] } }
        else if k = "" then
          some { acc with attributes :=
            { acc.attributes with value_substrings := acc.attributes.value_substrings ++ [v] } }
        else
          some { acc with attributes :=
            { acc.attributes with kv_substrings := acc.attributes.kv_substrings ++ [(k, v)] } }
      | none =>
        some { acc with tags := ⟨acc.tags.tag_substrings ++ [(⟨rest⟩ : String)]⟩ }
    | _ =>
      some { acc with text_substrings := acc.text_substrings ++ [word] }

/-- Model of `SearchQuery::new`: tokenize on whitespace, then classify by the
presence of the literal tokens, in this order: a bare hash selects the
tags branch, a bare hash-equals selects the attributes branch, anything
else is a records-and-links query.  A `none` result models a panic of one
of the internal assertions. -/
def searchQueryNew? (query : String) : Option SearchQuery :=
  if "#" ∈ split_whitespace query then
    some (.tags (tagsBranch (split_whitespace query)))
  else if "#=" ∈ split_whitespace query then
    ((split_whitespace query).foldlM attrStep ⟨[], [], []⟩).map .attributes
  else
    ((split_whitespace query).foldlM ralStep ⟨⟨[]⟩, ⟨[], [], []⟩, []⟩).map .recordsAndLinks

/-- One search result item (enum `SearchResult`; the tag and attribute
variants are carried for fidelity, only records and links are produced by
the records-and-links evaluator below). -/
inductive SearchResult where
  | record (record_id : Nat)
  | link (link_id : Nat)
  | tag (tag : String)
  | attribute (key value : String)
deriving DecidableEq

/-- Modelled from the spec: the container-level `search` for a
records-and-links query is not present under src (the only
`Container::search` there is unimplemented); per the spec, a candidate
entity is returned iff the query's check passes, and an empty overall
query matches nothing. -/
def searchRecordsAndLinks (q : SearchQueryRecordsAndLinks)
    (records : List (Nat × Record)) (links : List (Nat × Link)) : List SearchResult :=
  if q.is_empty then []
  else
    (records.filter fun p => q.check_record p.2).map (fun p => SearchResult.record p.1)
      ++ (links.filter fun p => q.check_link p.2).map (fun p => SearchResult.link p.1)

/-- Claim-side classification (C7): contribution of one attributes-query
token to the key substrings — empty value yields a key filter, a token
with no equals sign is both a key and a value filter. -/
def attrTokenKey (word : String) : Option String :=
  if stripHash word = "" || stripHash word = "=" then none
  else
    match splitFirstEqStr (stripHash word) with
    | some (k, v) => if v = "" then some k else none
    | none => some (stripHash word)

/-- Claim-side classification (C7): contribution of one attributes-query
token to the value substrings — empty key (with non-empty value) yields a
value filter, a token with no equals sign is both a key and a value filter. -/
def attrTokenValue (word : String) : Option String :=
  if stripHash word = "" || stripHash word = "=" then none
  else
    match splitFirstEqStr (stripHash word) with
    | some (k, v) => if v = "" then none else if k = "" then some v else none
    | none => some (stripHash word)

/-- Claim-side classification (C7): contribution of one attributes-query
token to the key=value filters — both parts non-empty. -/
def attrTokenKV (word : String) : Option (String × String) :=
  if stripHash word = "" || stripHash word = "=" then none
  else
    match splitFirstEqStr (stripHash word) with
    | some (k, v) => if v = "" then none else if k = "" then none else some (k, v)
    | none => none

/-- Row of the `records` table: id, version, optional payload (a SQL NULL
payload is `none`). -/
structure RecordRow where
  id : Nat
  ver : Nat
  data : Option (List Nat)
deriving DecidableEq

/-- Row of the `tags` table. -/
structure TagRow where
  id : Nat
  ver : Nat
  tag : String
deriving DecidableEq

/-- Row of the `attrs` table. -/
structure AttrRow where
  id : Nat
  ver : Nat
  key : String
  value : String
deriving DecidableEq

/-- Row of the `links` table: owning id and version, direction flag, and
the referenced entity id and version. -/
structure LinkRow where
  id : Nat
  ver : Nat
  isTo : Bool
  rId : Nat
  rVer : Nat
deriving DecidableEq

/-- The four sqlite tables, each as a list of rows in insertion order. -/
structure SqliteState where
  records : List RecordRow
  tags : List TagRow
  attrs : List AttrRow
  links : List LinkRow
deriving DecidableEq

/-- The container with no rows at all. -/
def emptyState : SqliteState := ⟨[], [], [], []⟩

/-- Data-dependent errors of `ContainerSqliteError` (connection and
statement failures are environment errors and cannot arise in the model). -/
inductive ContainerSqliteError where
  | tooManyRowsForARecord (eidv : EntityIdVer)
  | errorRetrievingRecordData
  | duplicateTagsInContainer (eidv : EntityIdVer) (tag : String)
  | duplicateAttrsInContainer (eidv : EntityIdVer) (key value : String)
deriving DecidableEq

/-- Tag strings stored for one (entity, version), in row order
(the SELECT in `tags_get`). -/
def tagsRowsFor (s : SqliteState) (eidv : EntityIdVer) : List String :=
  (s.tags.filter fun r => r.id == eidv.id && r.ver == eidv.ver).map (·.tag)

/-- Accumulating loop of `tags_get`: insert each tag into the set,
failing on a duplicate.  The HashSet is modelled as the list of elements
in insertion order. -/
def tagsGetLoop (eidv : EntityIdVer) :
    List String → List String → Except ContainerSqliteError (List String)
  | tags, [] => .ok tags
  | tags, t :: rest =>
    if t ∈ tags then .error (.duplicateTagsInContainer eidv t)
    else tagsGetLoop eidv (tags ++ [t]) rest

/-- Model of `ContainerSqliteTransaction::tags_get`. -/
def tags_get (s : SqliteState) (eidv : EntityIdVer) :
    Except ContainerSqliteError (List String) :=
  tagsGetLoop eidv [] (tagsRowsFor s eidv)

/-- Model of `ContainerSqliteTransaction::tags_put`: one INSERT per tag. -/
def tags_put (s : SqliteState) (eidv : EntityIdVer) (tags : List String) : SqliteState :=
  { s with tags := s.tags ++ tags.map fun t => ⟨eidv.id, eidv.ver, t⟩ }

/-- Attribute (key, value) pairs stored for one (entity, version), in row
order (the SELECT in `attrs_get`). -/
def attrsRowsFor (s : SqliteState) (eidv : EntityIdVer) : List (String × String) :=
  (s.attrs.filter fun r => r.id == eidv.id && r.ver == eidv.ver).map fun r => (r.key, r.value)

/-- Accumulating loop of `attrs_get`: insert each pair into the map,
failing when the key is already present. -/
def attrsGetLoop (eidv : EntityIdVer) :
    List (String × String) → List (String × String) →
    Except ContainerSqliteError (List (String × String))
  | attrs, [] => .ok attrs
  | attrs, (k, v) :: rest =>
    if k ∈ attrs.map Prod.fst then .error (.duplicateAttrsInContainer eidv k v)
    else attrsGetLoop eidv (attrs ++ [(k, v)]) rest

/-- Model of `ContainerSqliteTransaction::attrs_get`. -/
def attrs_get (s : SqliteState) (eidv : EntityIdVer) :
    Except ContainerSqliteError (List (String × String)) :=
  attrsGetLoop eidv [] (attrsRowsFor s eidv)

/-- Model of `ContainerSqliteTransaction::attrs_put`: one INSERT per pair. -/
def attrs_put (s : SqliteState) (eidv : EntityIdVer)
    (attrs : List (String × String)) : SqliteState :=
  { s with attrs := s.attrs ++ attrs.map fun a => ⟨eidv.id, eidv.ver, a.1, a.2⟩ }

/-- Composite read combining the tag and attribute primitives (trait
default `tags_and_attributes_get` in lib.rs, called `tags_and_attrs_get`
by the sqlite backend). -/
def tags_and_attrs_get (s : SqliteState) (eidv : EntityIdVer) :
    Except ContainerSqliteError TagsAndAttributes := do
  let tags ← tags_get s eidv
  let attrs ← attrs_get s eidv
  return ⟨tags, attrs⟩

/-- Composite write: tags first, then attributes (trait default
`tags_and_attributes_put` in lib.rs). -/
def tags_and_attrs_put (s : SqliteState) (eidv : EntityIdVer)
    (ta : TagsAndAttributes) : SqliteState :=
  attrs_put (tags_put s eidv ta.tags) eidv ta.attributes

/-- Payload column of the record rows matching one (id, version)
(the SELECT in `record_get`). -/
def recordRowsFor (s : SqliteState) (eidv : EntityIdVer) : List (Option (List Nat)) :=
  (s.records.filter fun r => r.id == eidv.id && r.ver == eidv.ver).map (·.data)

/-- Model of `ContainerSqliteTransaction::record_get`: more than one row is an
integrity error, no row is `none`; a NULL payload cannot be read back as
a blob (rusqlite column-type error), modelled as `errorRetrievingRecordData`. -/
def record_get (s : SqliteState) (eidv : EntityIdVer) :
    Except ContainerSqliteError (Option Record) :=
  let rows := recordRowsFor s eidv
  if rows.length > 1 then .error (.tooManyRowsForARecord eidv)
  else
    match rows with
    | [] => .ok none
    | first :: _ =>
      match first with
      | none => .error .errorRetrievingRecordData
      | some data => do
        let ta ← tags_and_attrs_get s eidv
        return some ⟨ta, some data⟩

/-- Model of `ContainerSqliteTransaction::record_get_ver_latest`:
`SELECT max(ver)` over the rows of one id, `none` when there are none. -/
def record_get_ver_latest (s : SqliteState) (eid : Nat) : Option EntityIdVer :=
  match (s.records.filter fun r => r.id == eid).map (·.ver) with
  | [] => none
  | v :: vs => some ⟨eid, vs.foldl max v⟩

/-- Model of `ContainerSqliteTransaction::record_put`: write under version
latest+1 (or 1), tags and attributes first, then the record row. -/
def record_put (s : SqliteState) (eid : Nat) (record : Record) :
    EntityIdVer × SqliteState :=
  let ver : Nat :=
    match record_get_ver_latest s eid with
    | some eidv => eidv.ver + 1
    | none => 1
  let eidv : EntityIdVer := ⟨eid, ver⟩
  let s1 := tags_and_attrs_put s eidv record.ta
  (eidv, { s1 with records := s1.records ++ [⟨eid, ver, record.data⟩] })

/-- Link rows matching one (id, version) (the SELECT in `link_get`). -/
def linkRowsFor (s : SqliteState) (eidv : EntityIdVer) : List LinkRow :=
  s.links.filter fun r => r.id == eidv.id && r.ver == eidv.ver

/-- Model of `ContainerSqliteTransaction::link_get`: partition the matching rows
into `from` and `to` edge sets; the result is always `some`, even when no
row matches. -/
def link_get (s : SqliteState) (eidv : EntityIdVer) :
    Except ContainerSqliteError (Option Link) :=
  let rows := linkRowsFor s eidv
  let from_ := (rows.filter fun r => !r.isTo).map fun r => EntityIdVer.mk r.rId r.rVer
  let to_ := (rows.filter fun r => r.isTo).map fun r => EntityIdVer.mk r.rId r.rVer
  match tags_and_attrs_get s eidv with
  | .error e => .error e
  | .ok ta => .ok (some ⟨ta, from_, to_⟩)

/-- Model of `ContainerSqliteTransaction::link_get_ver_latest`. -/
def link_get_ver_latest (s : SqliteState) (eid : Nat) : Option EntityIdVer :=
  match (s.links.filter fun r => r.id == eid).map (·.ver) with
  | [] => none
  | v :: vs => some ⟨eid, vs.foldl max v⟩

/-- Model of `ContainerSqliteTransaction::link_put`: write under version latest+1
(or 1), tags and attributes first, then one row per `from` edge followed
by one row per `to` edge. -/
def link_put (s : SqliteState) (eid : Nat) (link : Link) :
    EntityIdVer × SqliteState :=
  let ver : Nat :=
    match link_get_ver_latest s eid with
    | some eidv => eidv.ver + 1
    | none => 1
  let eidv : EntityIdVer := ⟨eid, ver⟩
  let s1 := tags_and_attrs_put s eidv link.ta
  let fromRows := link.from_.map fun r => LinkRow.mk eid ver false r.id r.ver
  let toRows := link.to_.map fun r => LinkRow.mk eid ver true r.id r.ver
  (eidv, { s1 with links := s1.links ++ fromRows ++ toRows })

/-- Is some record row stored under this id? -/
def isRecordId (s : SqliteState) (id : Nat) : Bool :=
  s.records.any fun r => r.id == id

/-- Is some link row stored under this id? -/
def isLinkId (s : SqliteState) (id : Nat) : Bool :=
  s.links.any fun r => r.id == id

/-- A concrete record with no tags, no attributes and an absent payload. -/
def datalessRecord : Record := ⟨⟨[], []⟩, none⟩

/-- A concrete record with a present payload. -/
def sampleRecord : Record := ⟨⟨["t"], [("k", "v")]⟩, some [97]⟩

/-- A concrete link with one `from` and one `to` edge. -/
def sampleLink : Link := ⟨⟨["t"], []⟩, [⟨1, 1⟩], [⟨2, 1⟩]⟩

deriving instance DecidableEq for Except

/-- Tokens produced by the whitespace splitter are never empty. -/
theorem splitWhitespaceByAux_ne_nil (p : Char → Bool) :
    ∀ (cs cur : List Char) (w : String), w ∈ splitWhitespaceByAux p cs cur → w.data ≠ []
  | [], cur, w => by
    unfold splitWhitespaceByAux
    split
    · simp
    · next h => intro hw; simp at hw; subst hw; simpa using h
  | c :: cs, cur, w => by
    unfold splitWhitespaceByAux
    split
    · intro hw
      simp only [List.mem_append] at hw
      rcases hw with hw | hw
      · split at hw
        · simp at hw
        · next h => simp at hw; subst hw; simpa using h
      · exact splitWhitespaceByAux_ne_nil p cs [] w hw
    · intro hw
      exact splitWhitespaceByAux_ne_nil p cs (cur ++ [c]) w hw

/-- Tokens of `split_whitespace` are never the empty string. -/
theorem mem_split_whitespace_ne_empty (q : String) (w : String)
    (h : w ∈ split_whitespace q) : w ≠ "" := by
  intro hw
  subst hw
  exact splitWhitespaceByAux_ne_nil rustIsWhitespace q.data [] "" h rfl

/-- Characterization of `splitFirstEq`: a successful split decomposes the
input around its first equals sign. -/
theorem splitFirstEq_some :
    ∀ (l k v : List Char), splitFirstEq l = some (k, v) → l = k ++ '=' :: v
  | [] => by simp [splitFirstEq]
  | c :: cs => by
    unfold splitFirstEq
    split
    · next h =>
      intro k v hkv
      simp only [Option.some.injEq, Prod.mk.injEq] at hkv
      obtain ⟨hk, hv⟩ := hkv
      subst hk; subst hv
      simp [h]
    · next h =>
      intro k v hkv
      cases hsub : splitFirstEq cs with
      | none => rw [hsub] at hkv; simp at hkv
      | some kv =>
        obtain ⟨k1, v1⟩ := kv
        rw [hsub] at hkv
        simp only [Option.some.injEq, Prod.mk.injEq] at hkv
        obtain ⟨hk, hv⟩ := hkv
        subst hk; subst hv
        have ih := splitFirstEq_some cs k1 v1 hsub
        simp [ih]

/-- String version of the characterization. -/
theorem splitFirstEqStr_some (w k v : String)
    (h : splitFirstEqStr w = some (k, v)) : w.data = k.data ++ '=' :: v.data := by
  unfold splitFirstEqStr at h
  cases hs : splitFirstEq w.data with
  | none => rw [hs] at h; simp at h
  | some kv =>
    obtain ⟨k1, v1⟩ := kv
    rw [hs] at h
    simp only [Option.some.injEq, Prod.mk.injEq] at h
    obtain ⟨hk, hv⟩ := h
    subst hk; subst hv
    exact splitFirstEq_some w.data k1 v1 hs

/-- A token whose key and value are both empty is the bare equals sign. -/
theorem splitFirstEqStr_both_empty (w : String)
    (h : splitFirstEqStr w = some ("", "")) : w = "=" := by
  have hd := splitFirstEqStr_some w "" "" h
  exact String.ext (by rw [hd]; rfl)

/-- The attributes branch can never hit its assertion: `attrStep` is total. -/
theorem attrStep_isSome (acc : SearchQueryAttributes) (word : String) :
    (attrStep acc word).isSome = true := by
  unfold attrStep
  split
  · rfl
  · next hguard =>
    split
    · next k v heq =>
      split
      · next hv =>
        split
        · next hk =>
          exfalso
          subst hv; subst hk
          exact hguard (by simp [splitFirstEqStr_both_empty _ heq])
        · rfl
      · split <;> rfl
    · rfl

/-- Folding `attrStep` over any token list succeeds. -/
theorem foldlM_attrStep_isSome :
    ∀ (words : List String) (acc : SearchQueryAttributes),
      (List.foldlM attrStep acc words).isSome = true
  | [], acc => rfl
  | w :: ws, acc => by
    have h := attrStep_isSome acc w
    cases hs : attrStep acc w with
    | none => rw [hs] at h; simp at h
    | some acc1 =>
      simpa [List.foldlM, hs] using foldlM_attrStep_isSome ws acc1

/-- The records-and-links branch can never hit an assertion on a token
that is non-empty and is neither of the two mode markers. -/
theorem ralStep_isSome (acc : SearchQueryRecordsAndLinks) (word : String)
    (h1 : word ≠ "") (h2 : word ≠ "#") (h3 : word ≠ "#=") :
    (ralStep acc word).isSome = true := by
  unfold ralStep
  rw [if_neg h1, if_neg h2, if_neg h3]
  split
  · next rest hw =>
    split
    · next k v heq =>
      split
      · next hv =>
        split
        · next hk =>
          exfalso
          subst hv; subst hk
          have : (⟨rest⟩ : String) = "=" := splitFirstEqStr_both_empty _ heq
          apply h3
          apply String.ext
          rw [hw]
          have hrest : rest = ['='] := congrArg String.data this
          rw [hrest]
        · rfl
      · split <;> rfl
    · rfl
  · rfl

/-- Folding `ralStep` succeeds when no token is empty, `#`, or `#=`. -/
theorem foldlM_ralStep_isSome :
    ∀ (words : List String) (acc : SearchQueryRecordsAndLinks),
      (∀ w ∈ words, w ≠ "" ∧ w ≠ "#" ∧ w ≠ "#=") →
      (List.foldlM ralStep acc words).isSome = true
  | [], _, _ => rfl
  | w :: ws, acc, h => by
    obtain ⟨hw1, hw2, hw3⟩ := h w (List.mem_cons_self w ws)
    have hsome := ralStep_isSome acc w hw1 hw2 hw3
    cases hs : ralStep acc w with
    | none => rw [hs] at hsome; simp at hsome
    | some acc1 =>
      have hrest : ∀ x ∈ ws, x ≠ "" ∧ x ≠ "#" ∧ x ≠ "#=" :=
        fun x hx => h x (List.mem_cons_of_mem w hx)
      simpa [List.foldlM, hs] using foldlM_ralStep_isSome ws acc1 hrest

/-- Appending behaviour of `List.filterMap` on a cons, phrased through
`Option.toList`. -/
theorem filterMap_cons_toList {α β : Type} (f : α → Option β) (x : α) (xs : List α) :
    List.filterMap f (x :: xs) = (f x).toList ++ List.filterMap f xs := by
  cases h : f x <;> simp [h]

/-- One attributes-branch step appends exactly the claim-side per-token
contributions to the three filter lists. -/
theorem attrStep_fields (acc : SearchQueryAttributes) (word : String)
    (acc1 : SearchQueryAttributes) (h : attrStep acc word = some acc1) :
    acc1.key_substrings = acc.key_substrings ++ (attrTokenKey word).toList ∧
    acc1.value_substrings = acc.value_substrings ++ (attrTokenValue word).toList ∧
    acc1.kv_substrings = acc.kv_substrings ++ (attrTokenKV word).toList := by
  unfold attrStep at h
  unfold attrTokenKey attrTokenValue attrTokenKV
  split at h
  · next hguard =>
    simp only [Option.some.injEq] at h
    subst h
    rw [if_pos hguard, if_pos hguard, if_pos hguard]
    simp
  · next hguard =>
    rw [if_neg hguard, if_neg hguard, if_neg hguard]
    split at h
    · next k v heq =>
      split at h
      · next hv =>
        split at h
        · simp at h
        · next hk =>
          simp only [Option.some.injEq] at h
          subst h
          simp [hv, hk]
      · next hv =>
        split at h
        · next hk =>
          simp only [Option.some.injEq] at h
          subst h
          simp [hv, hk]
        · next hk =>
          simp only [Option.some.injEq] at h
          subst h
          simp [hv, hk]
    · next heq =>
      simp only [Option.some.injEq] at h
      subst h
      simp

/-- Folding the attributes branch computes the three claim-side
per-token filter lists. -/
theorem foldlM_attrStep_filterMap :
    ∀ (words : List String) (acc res : SearchQueryAttributes),
      List.foldlM attrStep acc words = some res →
      res.key_substrings = acc.key_substrings ++ words.filterMap attrTokenKey ∧
      res.value_substrings = acc.value_substrings ++ words.filterMap attrTokenValue ∧
      res.kv_substrings = acc.kv_substrings ++ words.filterMap attrTokenKV
  | [], acc, res, h => by
    simp only [List.foldlM_nil, Option.pure_def, Option.some.injEq] at h
    subst h
    simp
  | w :: ws, acc, res, h => by
    cases hs : attrStep acc w with
    | none => simp [List.foldlM_cons, hs] at h
    | some acc1 =>
      simp only [List.foldlM_cons, hs, Option.some_bind] at h
      obtain ⟨h1, h2, h3⟩ := attrStep_fields acc w acc1 hs
      obtain ⟨g1, g2, g3⟩ := foldlM_attrStep_filterMap ws acc1 res h
      refine ⟨?_, ?_, ?_⟩
      · rw [g1, h1, filterMap_cons_toList, List.append_assoc]
      · rw [g2, h2, filterMap_cons_toList, List.append_assoc]
      · rw [g3, h3, filterMap_cons_toList, List.append_assoc]

/-- Claim C10: For every input string (including strings containing tokens
such as an equals sign, hash-equals-x, hash-a-equals, or arbitrary
whitespace), the query parser returns a structured query and never panics:
each of its internal assertions (non-empty token, token not equal to the
hash or hash-equals markers, non-empty key when the value is empty) is
unreachable.  In the model a panic is `none`, so the parse is always
`some`. -/
theorem c10_parser_total (query : String) : (searchQueryNew? query).isSome = true := by
  unfold searchQueryNew?
  split
  · rfl
  · next h1 =>
    split
    · have hfold := foldlM_attrStep_isSome (split_whitespace query) ⟨[], [], []⟩
      cases hs : List.foldlM attrStep ⟨[], [], []⟩ (split_whitespace query) with
      | none => rw [hs] at hfold; simp at hfold
      | some a => rfl
    · next h2 =>
      have hall : ∀ w ∈ split_whitespace query, w ≠ "" ∧ w ≠ "#" ∧ w ≠ "#=" := by
        intro w hw
        refine ⟨mem_split_whitespace_ne_empty query w hw, ?_, ?_⟩
        · intro hweq; subst hweq; exact h1 hw
        · intro hweq; subst hweq; exact h2 hw
      have hfold := foldlM_ralStep_isSome (split_whitespace query)
        ⟨⟨[]⟩, ⟨[], [], []⟩, []⟩ hall
      cases hs : List.foldlM ralStep ⟨⟨[]⟩, ⟨[], [], []⟩, []⟩ (split_whitespace query) with
      | none => rw [hs] at hfold; simp at hfold
      | some r => rfl

/-- Claim C6 (amended: the tokenization is on Unicode whitespace, as Rust
`split_whitespace`, not ASCII whitespace): classification precedence —
a literal hash token makes the parse a Tags query; otherwise a literal
hash-equals token makes it an Attributes query; otherwise it is a
Records-and-links query. -/
theorem c6_classification (query : String) :
    (("#" ∈ split_whitespace query) →
      ∃ t, searchQueryNew? query = some (SearchQuery.tags t)) ∧
    ("#" ∉ split_whitespace query → "#=" ∈ split_whitespace query →
      ∃ a, searchQueryNew? query = some (SearchQuery.attributes a)) ∧
    ("#" ∉ split_whitespace query → "#=" ∉ split_whitespace query →
      ∃ r, searchQueryNew? query = some (SearchQuery.recordsAndLinks r)) := by
  refine ⟨?_, ?_, ?_⟩
  · intro h1
    exact ⟨tagsBranch (split_whitespace query), by
      unfold searchQueryNew?; rw [if_pos h1]⟩
  · intro h1 h2
    have hfold := foldlM_attrStep_isSome (split_whitespace query) ⟨[], [], []⟩
    cases hs : List.foldlM attrStep ⟨[], [], []⟩ (split_whitespace query) with
    | none => rw [hs] at hfold; simp at hfold
    | some a =>
      refine ⟨a, ?_⟩
      unfold searchQueryNew?
      rw [if_neg h1, if_pos h2]
      rw [show (split_whitespace query).foldlM attrStep ⟨[], [], []⟩
            = some a from hs]
      rfl
  · intro h1 h2
    have hall : ∀ w ∈ split_whitespace query, w ≠ "" ∧ w ≠ "#" ∧ w ≠ "#=" := by
      intro w hw
      refine ⟨mem_split_whitespace_ne_empty query w hw, ?_, ?_⟩
      · intro hweq; subst hweq; exact h1 hw
      · intro hweq; subst hweq; exact h2 hw
    have hfold := foldlM_ralStep_isSome (split_whitespace query) ⟨⟨[]⟩, ⟨[], [], []⟩, []⟩ hall
    cases hs : List.foldlM ralStep ⟨⟨[]⟩, ⟨[], [], []⟩, []⟩ (split_whitespace query) with
    | none => rw [hs] at hfold; simp at hfold
    | some r =>
      refine ⟨r, ?_⟩
      unfold searchQueryNew?
      rw [if_neg h1, if_neg h2]
      rw [show (split_whitespace query).foldlM ralStep ⟨⟨[]⟩, ⟨[], [], []⟩, []⟩
            = some r from hs]
      rfl

/-- Claim C6 counterexample: the query consisting of a hash, a
NO-BREAK SPACE (U+00A0, which is Unicode whitespace but not ASCII
whitespace) and the letter a.  After splitting on ASCII whitespace there
is no literal hash token and no hash-equals token, so the claim as stated
predicts a Records-and-links query; the code splits on Unicode whitespace
and classifies it as a Tags query. -/
theorem c6_counterexample :
    ("#" ∉ splitAsciiWhitespace "#\u00A0a") ∧
    ("#=" ∉ splitAsciiWhitespace "#\u00A0a") ∧
    searchQueryNew? "#\u00A0a" = some (SearchQuery.tags ⟨["a"]⟩) ∧
    (∀ r, searchQueryNew? "#\u00A0a" ≠ some (SearchQuery.recordsAndLinks r)) := by
  refine ⟨by decide, by decide, by decide, ?_⟩
  intro r h
  rw [show searchQueryNew? "#\u00A0a" = some (SearchQuery.tags ⟨["a"]⟩) from by decide] at h
  simp at h

/-- Claim C6 witness: the three classification branches at concrete
queries. -/
theorem c6_witness :
    (∃ t, searchQueryNew? "x #" = some (SearchQuery.tags t)) ∧
    (∃ a, searchQueryNew? "#= k" = some (SearchQuery.attributes a)) ∧
    (∃ r, searchQueryNew? "x y" = some (SearchQuery.recordsAndLinks r)) :=
  ⟨(c6_classification "x #").1 (by decide),
   (c6_classification "#= k").2.1 (by decide) (by decide),
   (c6_classification "x y").2.2 (by decide) (by decide)⟩

/-- Claim C7: in an Attributes query, each token (after stripping one
leading hash and splitting on the first equals sign) contributes exactly
as the claim states: empty value gives a key-substring filter, empty key
gives a value-substring filter, both parts non-empty give a
key=value-substring filter, and a token with no equals sign gives both a
key-substring and a value-substring filter (the degenerate tokens whose
key and value are both empty contribute nothing). -/
theorem c7_attr_token_classification (query : String) (a : SearchQueryAttributes)
    (h : searchQueryNew? query = some (SearchQuery.attributes a)) :
    a.key_substrings = (split_whitespace query).filterMap attrTokenKey ∧
    a.value_substrings = (split_whitespace query).filterMap attrTokenValue ∧
    a.kv_substrings = (split_whitespace query).filterMap attrTokenKV := by
  unfold searchQueryNew? at h
  split at h
  · simp at h
  · split at h
    · cases hs : List.foldlM attrStep ⟨[], [], []⟩ (split_whitespace query) with
      | none =>
        rw [show (split_whitespace query).foldlM attrStep ⟨[], [], []⟩
              = none from hs] at h
        simp at h
      | some res =>
        rw [show (split_whitespace query).foldlM attrStep ⟨[], [], []⟩
              = some res from hs] at h
        simp at h
        subst h
        have := foldlM_attrStep_filterMap (split_whitespace query) ⟨[], [], []⟩ res hs
        simpa using this
    · cases hs : List.foldlM ralStep ⟨⟨[]⟩, ⟨[], [], []⟩, []⟩ (split_whitespace query) with
      | none =>
        rw [show (split_whitespace query).foldlM ralStep ⟨⟨[]⟩, ⟨[], [], []⟩, []⟩
              = none from hs] at h
        simp at h
      | some r =>
        rw [show (split_whitespace query).foldlM ralStep ⟨⟨[]⟩, ⟨[], [], []⟩, []⟩
              = some r from hs] at h
        simp at h

/-- Claim C7 witness: a concrete attributes query exercising all four
token shapes. -/
theorem c7_witness :
    (split_whitespace "#= a=b k= =v x").filterMap attrTokenKey = ["k", "x"] ∧
    (split_whitespace "#= a=b k= =v x").filterMap attrTokenValue = ["v", "x"] ∧
    (split_whitespace "#= a=b k= =v x").filterMap attrTokenKV = [("a", "b")] := by
  obtain ⟨h1, h2, h3⟩ := c7_attr_token_classification "#= a=b k= =v x"
    ⟨["k", "x"], ["v", "x"], [("a", "b")]⟩ (by decide)
  exact ⟨h1.symm, h2.symm, h3.symm⟩

/-- Claim C1 counterexample: the claim as stated requires EVERY declared
plain text substring to be contained in the decoded payload text, but the
record whose payload decodes to the single letter a passes the query with
text substrings a and b although b is not contained in the payload text. -/
theorem c1_counterexample :
    SearchQueryRecordsAndLinks.check_record ⟨⟨[]⟩, ⟨[], [], []⟩, ["a", "b"]⟩
        ⟨⟨[], []⟩, some [97]⟩ = true ∧
    utf8DecodeData (some [97]) = some ['a'] ∧
    ("b" ∈ (["a", "b"] : List String)) ∧
    listContainsSub ['a'] "b".data = false := by decide

/-- Claim C1 (amended: the code requires AT LEAST ONE declared plain text
substring, not every): a record passes the text condition of a
records-and-links query only if, when text substrings are declared, the
payload is absent or invalid UTF-8 (trivial satisfaction) or at least one
declared text substring is contained in the decoded payload text; and a
record whose tags/attributes check out and whose payload is absent or
invalid always passes. -/
theorem c1_check_record_text (q : SearchQueryRecordsAndLinks) (record : Record) :
    (q.check_record record = true → q.text_substrings ≠ [] →
      utf8DecodeData record.data = none ∨
        ∃ text, utf8DecodeData record.data = some text ∧
          ∃ s ∈ q.text_substrings, listContainsSub text s.data = true) ∧
    (q.check_tags_and_attributes record.ta = true →
      utf8DecodeData record.data = none → q.check_record record = true) := by
  constructor
  · intro hpass hne
    unfold SearchQueryRecordsAndLinks.check_record at hpass
    rw [Bool.and_eq_true] at hpass
    obtain ⟨-, htext⟩ := hpass
    rw [Bool.or_eq_true] at htext
    rcases htext with hempty | hmatch
    · exact absurd (by simpa [List.isEmpty_iff] using hempty) hne
    · cases hdata : record.data with
      | none => exact Or.inl rfl
      | some bytes =>
        have hmatch2 : (match utf8Decode bytes with
            | some record_data =>
              q.text_substrings.any fun s => listContainsSub record_data s.data
            | none => true) = true := by
          rw [hdata] at hmatch
          exact hmatch
        cases hdec : utf8Decode bytes with
        | none => exact Or.inl (by simpa [utf8DecodeData] using hdec)
        | some text =>
          rw [hdec] at hmatch2
          have hany : (q.text_substrings.any fun s => listContainsSub text s.data) = true :=
            hmatch2
          exact Or.inr ⟨text, by simpa [utf8DecodeData] using hdec,
            by simpa [List.any_eq_true] using hany⟩
  · intro hta hdec
    unfold SearchQueryRecordsAndLinks.check_record
    rw [hta, Bool.true_and]
    cases hdata : record.data with
    | none => simp
    | some bytes =>
      rw [hdata] at hdec
      simp only [utf8DecodeData] at hdec
      simp [hdec]

/-- Claim C1 witness: the amended theorem applied to a record whose
payload decodes to the letter a and a query declaring that letter. -/
theorem c1_witness :
    utf8DecodeData (some [97]) = none ∨
      ∃ text, utf8DecodeData (some [97]) = some text ∧
        ∃ s ∈ (["a"] : List String), listContainsSub text s.data = true :=
  (c1_check_record_text ⟨⟨[]⟩, ⟨[], [], []⟩, ["a"]⟩ ⟨⟨[], []⟩, some [97]⟩).1
    (by decide) (by decide)

/-- Claim C2: a records-and-links query with no tag substrings, no
attribute filters and no text substrings matches no entity — the search
result is empty.  The container-level search is modelled from the spec
(see `searchRecordsAndLinks`), since only the check functions are in src. -/
theorem c2_empty_query_empty_result (q : SearchQueryRecordsAndLinks)
    (records : List (Nat × Record)) (links : List (Nat × Link))
    (h1 : q.tags.tag_substrings = []) (h2 : q.attributes.key_substrings = [])
    (h3 : q.attributes.value_substrings = []) (h4 : q.attributes.kv_substrings = [])
    (h5 : q.text_substrings = []) :
    searchRecordsAndLinks q records links = [] := by
  unfold searchRecordsAndLinks
  rw [if_pos]
  unfold SearchQueryRecordsAndLinks.is_empty SearchQueryTags.is_empty
    SearchQueryAttributes.is_empty
  simp [h1, h2, h3, h4, h5]

/-- Claim C2 witness: the empty query on a container holding one record
and one link. -/
theorem c2_witness :
    searchRecordsAndLinks ⟨⟨[]⟩, ⟨[], [], []⟩, []⟩
      [(1, sampleRecord)] [(2, sampleLink)] = [] :=
  c2_empty_query_empty_result _ _ _ rfl rfl rfl rfl rfl

/-- Claim C3 counterexample: for an entity reference with no stored link
rows, `link_get` does not return `None`; it returns `Some` of a link with
empty edge sets. -/
theorem c3_counterexample :
    link_get emptyState ⟨1, 1⟩ = .ok (some ⟨⟨[], []⟩, [], []⟩) ∧
    link_get emptyState ⟨1, 1⟩ ≠ .ok none := by decide

/-- Claim C3 (amended: for every entity reference with no stored link
rows, `link_get` returns Ok — never an error — of `Some` link whose `from`
and `to` edge sets are empty, with whatever tags/attributes are stored;
absence of link rows is itself never an error, though it is reported as a
present-but-empty link value rather than as `None`). -/
theorem c3_link_get_no_rows (s : SqliteState) (eidv : EntityIdVer)
    (ta : TagsAndAttributes) (hrows : linkRowsFor s eidv = [])
    (hta : tags_and_attrs_get s eidv = .ok ta) :
    link_get s eidv = .ok (some ⟨ta, [], []⟩) := by
  unfold link_get
  rw [hrows, hta]
  rfl

/-- Claim C3 witness: the amended theorem at the empty container. -/
theorem c3_witness : link_get emptyState ⟨2, 1⟩ = .ok (some ⟨⟨[], []⟩, [], []⟩) :=
  c3_link_get_no_rows emptyState ⟨2, 1⟩ ⟨[], []⟩ rfl rfl

/-- Claim C4 (code bug): `record_put` of a record with an absent payload
stores a NULL payload row, but `record_get` of the returned reference
cannot read a NULL payload back as a blob and returns an error instead of
a record equal to the one stored (it could also never return an absent
payload, since it wraps every payload in `Some`). -/
theorem c4_dataless_record_roundtrip_error :
    (record_put emptyState 1 datalessRecord).1 = ⟨1, 1⟩ ∧
    record_get (record_put emptyState 1 datalessRecord).2 ⟨1, 1⟩ =
      .error .errorRetrievingRecordData ∧
    datalessRecord.data = none := by decide

/-- Folding max over a list extended by an upper bound yields the bound. -/
theorem foldl_max_append (l : List Nat) (x v : Nat) (h : List.foldl max x l ≤ v) :
    List.foldl max x (l ++ [v]) = v := by
  rw [List.foldl_append]
  simpa using Nat.max_eq_right h

/-- Claim C5: `record_put` looks up the current latest version of the ID
and writes under latest+1 (or 1 when no version exists), returning the
new (id, version) pair, and `record_get_ver_latest` of the new state
returns exactly the version just written — hence successive puts on one
ID yield strictly increasing versions starting at 1. -/
theorem c5_record_put_version (s : SqliteState) (eid : Nat) (record : Record) :
    (record_put s eid record).1.id = eid ∧
    (record_get_ver_latest s eid = none → (record_put s eid record).1.ver = 1) ∧
    (∀ w, record_get_ver_latest s eid = some w →
      (record_put s eid record).1.ver = w.ver + 1) ∧
    record_get_ver_latest (record_put s eid record).2 eid =
      some (record_put s eid record).1 := by
  have hv : (record_put s eid record).1.ver =
      (match record_get_ver_latest s eid with
       | some e => e.ver + 1
       | none => 1) := rfl
  refine ⟨rfl, ?_, ?_, ?_⟩
  · intro h
    rw [hv, h]
  · intro w hw
    rw [hv, hw]
  · have hrec : (record_put s eid record).2.records =
        s.records ++ [⟨eid, (record_put s eid record).1.ver, record.data⟩] := rfl
    have h1 : (record_put s eid record).1 =
        ⟨eid, (record_put s eid record).1.ver⟩ := rfl
    rw [h1]
    unfold record_get_ver_latest
    rw [hrec, List.filter_append, List.map_append]
    have hfilt : List.filter (fun r => r.id == eid)
        [(⟨eid, (record_put s eid record).1.ver, record.data⟩ : RecordRow)] =
        [⟨eid, (record_put s eid record).1.ver, record.data⟩] := by simp
    rw [hfilt]
    cases hold : (s.records.filter fun r => r.id == eid).map (·.ver) with
    | nil => rfl
    | cons x xs =>
      have hlat : record_get_ver_latest s eid = some ⟨eid, xs.foldl max x⟩ := by
        unfold record_get_ver_latest
        rw [hold]
      rw [hlat] at hv
      simp only [List.cons_append, List.map_cons]
      have : List.foldl max x (xs ++ [(record_put s eid record).1.ver]) =
          (record_put s eid record).1.ver := by
        apply foldl_max_append
        rw [hv]
        exact Nat.le_succ _
      simp [this]

/-- Claim C5 witness: two successive puts on one fresh ID get versions
1 and 2, and the latest version tracks the last put. -/
theorem c5_witness :
    record_get_ver_latest emptyState 7 = none ∧
    (record_put emptyState 7 sampleRecord).1.ver = 1 ∧
    record_get_ver_latest (record_put emptyState 7 sampleRecord).2 7 =
      some (record_put emptyState 7 sampleRecord).1 :=
  ⟨rfl, (c5_record_put_version emptyState 7 sampleRecord).2.1 rfl,
   (c5_record_put_version emptyState 7 sampleRecord).2.2.2⟩

/-- Loop invariant of `tags_get`: starting from a duplicate-free set, a
row list whose combination with it has a repeat makes the loop fail with
the duplicate-tag integrity error. -/
theorem tagsGetLoop_dup (eidv : EntityIdVer) :
    ∀ (rows acc : List String), acc.Nodup → ¬ (acc ++ rows).Nodup →
      ∃ t, tagsGetLoop eidv acc rows = .error (.duplicateTagsInContainer eidv t)
  | [], acc, hacc, hdup => by
    simp only [List.append_nil] at hdup
    exact absurd hacc hdup
  | t :: rest, acc, hacc, hdup => by
    unfold tagsGetLoop
    split
    · exact ⟨t, rfl⟩
    · next hmem =>
      apply tagsGetLoop_dup eidv rest (acc ++ [t])
      · rw [List.nodup_append]
        refine ⟨hacc, List.nodup_singleton t, ?_⟩
        intro a ha hb
        simp only [List.mem_singleton] at hb
        subst hb
        exact hmem ha
      · intro hn
        apply hdup
        rw [List.append_assoc] at hn
        exact hn

/-- Loop invariant of `attrs_get`: a repeated key makes the loop fail with
the duplicate-attribute integrity error. -/
theorem attrsGetLoop_dup (eidv : EntityIdVer) :
    ∀ (rows acc : List (String × String)), (acc.map Prod.fst).Nodup →
      ¬ ((acc ++ rows).map Prod.fst).Nodup →
      ∃ k v, attrsGetLoop eidv acc rows = .error (.duplicateAttrsInContainer eidv k v)
  | [], acc, hacc, hdup => by
    simp only [List.append_nil] at hdup
    exact absurd hacc hdup
  | (k, v) :: rest, acc, hacc, hdup => by
    unfold attrsGetLoop
    split
    · exact ⟨k, v, rfl⟩
    · next hmem =>
      apply attrsGetLoop_dup eidv rest (acc ++ [(k, v)])
      · rw [List.map_append, List.nodup_append]
        refine ⟨hacc, by simp, ?_⟩
        intro a ha hb
        simp only [List.map_cons, List.map_nil, List.mem_singleton] at hb
        subst hb
        exact hmem ha
      · intro hn
        apply hdup
        rw [List.append_assoc] at hn
        exact hn

/-- Claim C8: when the stored rows for one (entity, version) contain a
repeated tag string, `tags_get` returns the duplicate-tag integrity error
rather than a silently deduplicated set, and likewise `attrs_get` returns
the duplicate-attribute integrity error when an attribute key repeats. -/
theorem c8_duplicate_integrity (s : SqliteState) (eidv : EntityIdVer) :
    (¬ (tagsRowsFor s eidv).Nodup →
      ∃ t, tags_get s eidv = .error (.duplicateTagsInContainer eidv t)) ∧
    (¬ ((attrsRowsFor s eidv).map Prod.fst).Nodup →
      ∃ k v, attrs_get s eidv = .error (.duplicateAttrsInContainer eidv k v)) := by
  constructor
  · intro hdup
    exact tagsGetLoop_dup eidv (tagsRowsFor s eidv) [] List.nodup_nil
      (by simpa using hdup)
  · intro hdup
    exact attrsGetLoop_dup eidv (attrsRowsFor s eidv) [] (by simp)
      (by simpa using hdup)

/-- Claim C8 witness: a container with two identical tag rows and two
rows with the same attribute key for one (entity, version). -/
theorem c8_witness :
    (∃ t, tags_get ⟨[], [⟨1, 1, "a"⟩, ⟨1, 1, "a"⟩],
        [⟨1, 1, "k", "x"⟩, ⟨1, 1, "k", "y"⟩], []⟩ ⟨1, 1⟩ =
      .error (.duplicateTagsInContainer ⟨1, 1⟩ t)) ∧
    (∃ k v, attrs_get ⟨[], [⟨1, 1, "a"⟩, ⟨1, 1, "a"⟩],
        [⟨1, 1, "k", "x"⟩, ⟨1, 1, "k", "y"⟩], []⟩ ⟨1, 1⟩ =
      .error (.duplicateAttrsInContainer ⟨1, 1⟩ k v)) :=
  ⟨(c8_duplicate_integrity ⟨[], [⟨1, 1, "a"⟩, ⟨1, 1, "a"⟩],
      [⟨1, 1, "k", "x"⟩, ⟨1, 1, "k", "y"⟩], []⟩ ⟨1, 1⟩).1 (by decide),
   (c8_duplicate_integrity ⟨[], [⟨1, 1, "a"⟩, ⟨1, 1, "a"⟩],
      [⟨1, 1, "k", "x"⟩, ⟨1, 1, "k", "y"⟩], []⟩ ⟨1, 1⟩).2 (by decide)⟩

/-- Claim C9 counterexample: the shared-namespace invariant is not
preserved — starting from the empty container, `record_put` under id 5
followed by `link_put` under the same id 5 both succeed and leave id 5
simultaneously in use as a record ID and as a link ID. -/
theorem c9_counterexample :
    isRecordId (link_put (record_put emptyState 5 sampleRecord).2 5 sampleLink).2 5 = true ∧
    isLinkId (link_put (record_put emptyState 5 sampleRecord).2 5 sampleLink).2 5 = true := by
  decide

/-- Claim C9 (amended: `record_put` and `link_put` perform no
cross-namespace check at all — from ANY state, putting a record and then
a link under the same explicit id which has at least one edge yields a
state where that id is simultaneously a record ID and a link ID). -/
theorem c9_puts_allow_shared_id (s : SqliteState) (eid : Nat)
    (record : Record) (link : Link) (h : link.from_ ≠ []) :
    isRecordId (link_put (record_put s eid record).2 eid link).2 eid = true ∧
    isLinkId (link_put (record_put s eid record).2 eid link).2 eid = true := by
  constructor
  · have hrec : (link_put (record_put s eid record).2 eid link).2.records =
        s.records ++ [⟨eid, (record_put s eid record).1.ver, record.data⟩] := rfl
    unfold isRecordId
    rw [hrec, List.any_append]
    simp
  · have hlink : (link_put (record_put s eid record).2 eid link).2.links =
        (record_put s eid record).2.links ++
          link.from_.map (fun r =>
            LinkRow.mk eid (link_put (record_put s eid record).2 eid link).1.ver
              false r.id r.ver) ++
          link.to_.map (fun r =>
            LinkRow.mk eid (link_put (record_put s eid record).2 eid link).1.ver
              true r.id r.ver) := rfl
    cases hfrom : link.from_ with
    | nil => exact absurd hfrom h
    | cons e es =>
      unfold isLinkId
      rw [hlink, hfrom]
      simp [List.any_append]

/-- Claim C9 witness: the amended theorem at the empty container. -/
theorem c9_witness :
    isRecordId (link_put (record_put emptyState 9 datalessRecord).2 9 sampleLink).2 9 = true ∧
    isLinkId (link_put (record_put emptyState 9 datalessRecord).2 9 sampleLink).2 9 = true :=
  c9_puts_allow_shared_id emptyState 9 datalessRecord sampleLink (by decide)

end Mze
